import Mathlib

/-!
Verification development for the series-aggregation logic of a World Bank
statistics dashboard (src/app1.py).  Per-country annual series are lists of
(year, value) pairs with null values already removed; the trend aggregation
is modelled as a fold over association lists that mirrors the Python
dictionary accumulation loop, including its insertion-order semantics.
-/

/-- A fetched per-entity series: (year, value) pairs with null values
already removed, as produced by get_series. -/
abbrev Series := List (Int × ℚ)

/-- First value stored under year y in an association list (Python dict
lookup; on a raw series, the first observation for year y). -/
def alookup (y : Int) : List (Int × ℚ) → Option ℚ
  | [] => none
  | p :: rest => if p.1 = y then some p.2 else alookup y rest

/-- All values a single series carries for year y. -/
def valsAt (y : Int) (s : Series) : List ℚ :=
  s.filterMap (fun p => if p.1 = y then some p.2 else none)

/-- Python dict update d[y] = d.get(y, 0) + v on an association list:
update the first matching key in place, else append at the end (this is
exactly the insertion-order behaviour of a Python dict). -/
def dictAdd : List (Int × ℚ) → Int → ℚ → List (Int × ℚ)
  | [], y, v => [(y, v)]
  | p :: rest, y, v =>
      if p.1 = y then (p.1, p.2 + v) :: rest else p :: dictAdd rest y v

/-- Fold one member's series into the accumulator dict (the inner for-loop
of the tab_trends aggregation). -/
def addSeries (m : List (Int × ℚ)) (s : Series) : List (Int × ℚ) :=
  s.foldl (fun acc p => dictAdd acc p.1 p.2) m

/-- The yearly dict after processing every member (the outer for-loop of
the tab_trends aggregation, started from the empty dict). -/
def buildYearly (ss : List Series) : List (Int × ℚ) :=
  ss.foldl addSeries []

/-- One chart trace of the Trends tab.  A member is a pair of its metric
series and its population series (both fetched by get_series).  The
non-per-capita branch emits the yearly dict itself; the GDP-per-Capita
branch keeps the years also present in the population dict and divides the
two dict values.  No trace is added when the yearly dict is empty, which
the result models as none.  Rat division here is total with x / 0 = 0; the
companion definition trendsTracePerCapita models the division fallibly and
is the authority for the zero-divisor behaviour, and the two agree
whenever every kept year has a nonzero total weight. -/
def trendsTrace (perCapita : Bool) (members : List (Series × Series)) :
    Option (List (Int × ℚ)) :=
  let yearly := buildYearly (members.map Prod.fst)
  let yearlyPop := buildYearly (members.map Prod.snd)
  if yearly = [] then none
  else some (if perCapita then
      (yearly.filter (fun p => (alookup p.1 yearlyPop).isSome)).map
        (fun p => (p.1, p.2 / (alookup p.1 yearlyPop).getD 0))
    else yearly)

/-- The sequence of years handed to the chart for one trace (the xvals
list), empty when no trace is added. -/
def trendYears (perCapita : Bool) (members : List (Series × Series)) : List Int :=
  ((trendsTrace perCapita members).getD []).map Prod.fst

/-- The trend trace as a function of the data-access collaborator: each
entity identifier is resolved to its (metric series, population series)
through the fetch function, exactly as the loop calls get_series per
member. -/
def trendsTraceF (perCapita : Bool) (fetch : Nat → Series × Series)
    (members : List Nat) : Option (List (Int × ℚ)) :=
  trendsTrace perCapita (members.map fetch)

/-- The metric values reported at year y, one per member that has an
observation for y (members without one contribute nothing). -/
def reportedVals (members : List (Series × Series)) (y : Int) : List ℚ :=
  members.filterMap (fun m => alookup y m.1)

/-- Weighted-ratio aggregate at one year as the spec states it (spec
section 4.1), written here for comparison with the source computation:
numerator and weight sums range only over members that report both series
for the year, and a zero total weight omits the year. -/
def weightedRatioSpec (members : List (Series × Series)) (y : Int) : Option ℚ :=
  let both := members.filter
    (fun m => (alookup y m.1).isSome && (alookup y m.2).isSome)
  let nums := both.filterMap (fun m => alookup y m.1)
  let wts := both.filterMap (fun m => alookup y m.2)
  if wts.sum = 0 then none else some (nums.sum / wts.sum)

/-- One member's latest values in the Comparison tab: the selected metric
and the population, each possibly absent (get_indicator results). -/
structure CMember where
  val : Option ℚ
  pop : Option ℚ
deriving DecidableEq

/-- Python truthiness filter on an optional number: None and 0 are both
falsy, every other value passes through. -/
def truthy (o : Option ℚ) : Option ℚ :=
  o.bind (fun x => if x = 0 then none else some x)

/-- The vals list of tab_compare: the metric is kept whenever it is not
None (a zero value is kept). -/
def cvals (ms : List CMember) : List ℚ :=
  ms.filterMap (fun m => m.val)

/-- The pops list of tab_compare: the population is kept only when truthy
(a zero value is dropped like an absent one). -/
def cpops (ms : List CMember) : List ℚ :=
  ms.filterMap (fun m => truthy m.pop)

/-- The members whose metric value is present. -/
def reportedC (ms : List CMember) : List CMember :=
  ms.filter (fun m => m.val.isSome)

/-- The three aggregation branches of tab_compare: plain sum (Population,
GDP), the GDP-per-Capita branch, and the mean branch (Gini). -/
inductive CMode where
  | sumMode
  | perCapitaMode
  | giniMode
deriving DecidableEq

/-- The tab_compare aggregate for one group: None when no member reports
the metric, otherwise the branch formula on the filtered lists.  The
per-capita branch zips the two independently filtered lists, exactly as
the source does. -/
def compareAgg (mode : CMode) (ms : List CMember) : Option ℚ :=
  let vals := cvals ms
  let pops := cpops ms
  if vals = [] then none
  else some (match mode with
    | .sumMode => vals.sum
    | .perCapitaMode => ((vals.zip pops).map (fun q => q.1 * q.2)).sum / pops.sum
    | .giniMode => vals.sum / (vals.length : ℚ))

/-- One member's latest trade values in the Trade tab. -/
structure TMember where
  imp : Option ℚ
  exp : Option ℚ
deriving DecidableEq

/-- The imports list of tab_trade: kept only when truthy (if imp:). -/
def importsOf (ms : List TMember) : List ℚ :=
  ms.filterMap (fun m => truthy m.imp)

/-- The exports list of tab_trade: kept only when truthy (if exp:). -/
def exportsOf (ms : List TMember) : List ℚ :=
  ms.filterMap (fun m => truthy m.exp)

/-- The three views of the Trade tab. -/
inductive TradeView where
  | importsView
  | exportsView
  | balanceView
deriving DecidableEq

/-- The tab_trade aggregate for one group, following the source: each view
sums the filtered list, None when the relevant lists are empty. -/
def tradeAgg (view : TradeView) (ms : List TMember) : Option ℚ :=
  match view with
  | .importsView =>
      if importsOf ms = [] then none else some (importsOf ms).sum
  | .exportsView =>
      if exportsOf ms = [] then none else some (exportsOf ms).sum
  | .balanceView =>
      if importsOf ms = [] ∧ exportsOf ms = [] then none
      else some ((exportsOf ms).sum - (importsOf ms).sum)

/-- One country's contribution to the live growth total: zero unless both
its population and the world population are truthy (if pop and world_pop). -/
def liveContribution (worldPop : Option ℚ) (pop : Option ℚ) : ℚ :=
  match truthy pop with
  | none => 0
  | some p =>
      match truthy worldPop with
      | none => 0
      | some w => (140000000 - 60000000) * (p / w)

/-- The Live-mode total growth per year for one group: the accumulation
loop over the members' population fetches. -/
def liveGrowthPerYear (worldPop : Option ℚ) (pops : List (Option ℚ)) : ℚ :=
  pops.foldl (fun acc p => acc + liveContribution worldPop p) 0

/-- One raw record of a World Bank API response: a date and a possibly
null value. -/
structure WBEntry where
  date : Int
  value : Option ℚ
deriving DecidableEq

/-- The decoded JSON body of a World Bank response as the Python code sees
it: a list whose second element is either null or the list of records. -/
abbrev WBResponse := List (Option (List WBEntry))

/-- safe_json: an HTTP or parse failure (the Except.error side) is
absorbed into None; a successful decode passes the body through. -/
def safe_json (r : Except Unit WBResponse) : Option WBResponse :=
  match r with
  | .error _ => none
  | .ok js => some js

/-- Insert one pair into a list sorted by Python tuple comparison (year
first, then value). -/
def insertPair (p : Int × ℚ) : List (Int × ℚ) → List (Int × ℚ)
  | [] => [p]
  | q :: rest =>
      if p.1 < q.1 ∨ (p.1 = q.1 ∧ p.2 ≤ q.2) then p :: q :: rest
      else q :: insertPair p rest

/-- The sorted(...) call of get_series: ascending by (year, value). -/
def sortPairs (l : List (Int × ℚ)) : List (Int × ℚ) :=
  l.foldr insertPair []

/-- get_series: empty on fetch failure, on a short response and on a null
data page; otherwise the sorted non-null (year, value) pairs. -/
def get_series (r : Except Unit WBResponse) : List (Int × ℚ) :=
  match safe_json r with
  | none => []
  | some js =>
      if js.length < 2 then []
      else match js.get? 1 with
        | none => []
        | some none => []
        | some (some entries) =>
            sortPairs (entries.filterMap
              (fun d => d.value.map (fun v => (d.date, v))))

/-- get_indicator: None on fetch failure, on a short response and on a
null data page; otherwise the first non-null value in the records. -/
def get_indicator (r : Except Unit WBResponse) : Option ℚ :=
  match safe_json r with
  | none => none
  | some js =>
      if js.length < 2 then none
      else match js.get? 1 with
        | none => none
        | some none => none
        | some (some entries) =>
            (entries.find? (fun d => d.value.isSome)).bind (fun d => d.value)

/-- Outcome of one per-capita trend trace when the division is modelled
fallibly: the computation can abort with a ZeroDivisionError, add no
trace at all, or add a trace. -/
inductive PCResult where
  | crash
  | noTrace
  | trace (out : List (Int × ℚ))
deriving DecidableEq

/-- The division sequence of the per-capita list comprehension, with
Python semantics for the division itself: a zero divisor aborts the whole
comprehension instead of producing a value. -/
def divYears (yearlyPop : List (Int × ℚ)) : List (Int × ℚ) → Option (List (Int × ℚ))
  | [] => some []
  | p :: rest =>
      if (alookup p.1 yearlyPop).getD 0 = 0 then none
      else match divYears yearlyPop rest with
        | none => none
        | some out => some ((p.1, p.2 / (alookup p.1 yearlyPop).getD 0) :: out)

/-- The GDP-per-Capita branch of tab_trends with the division modelled
fallibly: the same year selection as trendsTrace, but a kept year whose
stored total weight is zero aborts the computation (Python raises
ZeroDivisionError) instead of yielding a value. -/
def trendsTracePerCapita (members : List (Series × Series)) : PCResult :=
  let yearly := buildYearly (members.map Prod.fst)
  let yearlyPop := buildYearly (members.map Prod.snd)
  if yearly = [] then PCResult.noTrace
  else
    match divYears yearlyPop
        (yearly.filter (fun p => (alookup p.1 yearlyPop).isSome)) with
    | none => PCResult.crash
    | some out => PCResult.trace out

/-- Conversion aligning the total model's optional trace with PCResult. -/
def toPCResult : Option (List (Int × ℚ)) → PCResult
  | none => PCResult.noTrace
  | some out => PCResult.trace out

/-! ## Basic lemmas about the yearly dictionary -/

theorem valsAt_nil (y : Int) : valsAt y [] = [] := rfl

theorem valsAt_cons (y : Int) (p : Int × ℚ) (s : Series) :
    valsAt y (p :: s) = if p.1 = y then p.2 :: valsAt y s else valsAt y s := by
  by_cases h : p.1 = y <;> simp [valsAt, List.filterMap_cons, h]

theorem valsAt_eq_nil_iff (y : Int) (s : Series) :
    valsAt y s = [] ↔ alookup y s = none := by
  induction s with
  | nil => simp [valsAt, alookup]
  | cons p rest ih =>
      by_cases h : p.1 = y <;> simp [valsAt_cons, alookup, h, ih]

theorem alookup_dictAdd (m : List (Int × ℚ)) (y y' : Int) (v : ℚ) :
    alookup y (dictAdd m y' v) =
      if y' = y then some ((alookup y m).getD 0 + v) else alookup y m := by
  induction m with
  | nil =>
      by_cases h : y' = y <;> simp [dictAdd, alookup, h]
  | cons p rest ih =>
      obtain ⟨a, b⟩ := p
      by_cases h1 : a = y'
      · subst h1
        by_cases h2 : a = y <;> simp [dictAdd, alookup, h2, ih]
      · by_cases h2 : a = y
        · subst h2
          have hy : ¬ y' = a := fun hh => h1 hh.symm
          simp [dictAdd, alookup, h1, hy, alookup]
        · simp [dictAdd, alookup, h1, h2, ih]

theorem addSeries_nil (m : List (Int × ℚ)) : addSeries m [] = m := rfl

theorem addSeries_cons (m : List (Int × ℚ)) (p : Int × ℚ) (s : Series) :
    addSeries m (p :: s) = addSeries (dictAdd m p.1 p.2) s := rfl

theorem alookup_addSeries_eq_none (s : Series) :
    ∀ (m : List (Int × ℚ)) (y : Int),
      alookup y (addSeries m s) = none ↔ alookup y m = none ∧ valsAt y s = [] := by
  induction s with
  | nil => intro m y; simp [addSeries_nil, valsAt_nil]
  | cons p rest ih =>
      intro m y
      rw [addSeries_cons, ih, alookup_dictAdd, valsAt_cons]
      by_cases h : p.1 = y <;> simp [h]

theorem alookup_addSeries_getD (s : Series) :
    ∀ (m : List (Int × ℚ)) (y : Int),
      (alookup y (addSeries m s)).getD 0 =
        (alookup y m).getD 0 + (valsAt y s).sum := by
  induction s with
  | nil => intro m y; simp [addSeries_nil, valsAt_nil]
  | cons p rest ih =>
      intro m y
      rw [addSeries_cons, ih, alookup_dictAdd, valsAt_cons]
      by_cases h : p.1 = y
      · simp [h]
        ring
      · simp [h]

theorem alookup_foldl_eq_none (ss : List Series) :
    ∀ (m : List (Int × ℚ)) (y : Int),
      alookup y (ss.foldl addSeries m) = none ↔
        alookup y m = none ∧ ∀ s ∈ ss, valsAt y s = [] := by
  induction ss with
  | nil => intro m y; simp
  | cons s rest ih =>
      intro m y
      rw [List.foldl_cons, ih, alookup_addSeries_eq_none]
      constructor
      · rintro ⟨⟨h1, h2⟩, h3⟩
        exact ⟨h1, by intro t ht; rcases List.mem_cons.mp ht with h | h
                      exacts [h ▸ h2, h3 t h]⟩
      · rintro ⟨h1, h2⟩
        exact ⟨⟨h1, h2 s (List.mem_cons_self s rest)⟩,
               fun t ht => h2 t (List.mem_cons_of_mem s ht)⟩

theorem alookup_foldl_getD (ss : List Series) :
    ∀ (m : List (Int × ℚ)) (y : Int),
      (alookup y (ss.foldl addSeries m)).getD 0 =
        (alookup y m).getD 0 + (ss.map (fun s => (valsAt y s).sum)).sum := by
  induction ss with
  | nil => intro m y; simp
  | cons s rest ih =>
      intro m y
      rw [List.foldl_cons, ih, alookup_addSeries_getD]
      simp [add_assoc]

theorem alookup_buildYearly_eq_none (ss : List Series) (y : Int) :
    alookup y (buildYearly ss) = none ↔ ∀ s ∈ ss, valsAt y s = [] := by
  rw [buildYearly, alookup_foldl_eq_none]
  simp [alookup]

theorem alookup_buildYearly_getD (ss : List Series) (y : Int) :
    (alookup y (buildYearly ss)).getD 0 =
      (ss.map (fun s => (valsAt y s).sum)).sum := by
  rw [buildYearly, alookup_foldl_getD]
  simp [alookup]

theorem mem_keys_iff_isSome (y : Int) (m : List (Int × ℚ)) :
    y ∈ m.map Prod.fst ↔ (alookup y m).isSome := by
  induction m with
  | nil => simp [alookup]
  | cons p rest ih =>
      by_cases h : p.1 = y
      · simp [alookup, h]
      · have : ¬ y = p.1 := fun hh => h hh.symm
        simp [alookup, h, this, ih]

theorem alookup_eq_some_mem (y : Int) (v : ℚ) (m : List (Int × ℚ)) :
    alookup y m = some v → (y, v) ∈ m := by
  induction m with
  | nil => simp [alookup]
  | cons p rest ih =>
      by_cases h : p.1 = y
      · subst h
        simp only [alookup, if_pos rfl]
        rintro h2
        obtain ⟨a, b⟩ := p
        simp at h2
        simp [h2]
      · simp only [alookup, if_neg h]
        intro h2
        exact List.mem_cons_of_mem p (ih h2)

theorem keys_dictAdd (m : List (Int × ℚ)) (y : Int) (v : ℚ) :
    (dictAdd m y v).map Prod.fst =
      if y ∈ m.map Prod.fst then m.map Prod.fst else m.map Prod.fst ++ [y] := by
  induction m with
  | nil => simp [dictAdd]
  | cons p rest ih =>
      by_cases h : p.1 = y
      · subst h
        simp [dictAdd]
      · have : ¬ p.1 = y := h
        have h2 : ¬ y = p.1 := fun hh => h hh.symm
        by_cases hm : y ∈ rest.map Prod.fst <;>
          simp [dictAdd, this, h2, hm, ih]

theorem nodup_keys_dictAdd (m : List (Int × ℚ)) (y : Int) (v : ℚ)
    (h : (m.map Prod.fst).Nodup) : ((dictAdd m y v).map Prod.fst).Nodup := by
  rw [keys_dictAdd]
  by_cases hm : y ∈ m.map Prod.fst
  · simpa [hm] using h
  · simp only [hm, if_false]
    rw [List.nodup_append]
    exact ⟨h, List.nodup_singleton y, by simpa using fun hy => hm hy⟩

theorem nodup_keys_addSeries (s : Series) :
    ∀ m : List (Int × ℚ), (m.map Prod.fst).Nodup →
      ((addSeries m s).map Prod.fst).Nodup := by
  induction s with
  | nil => intro m h; simpa [addSeries_nil] using h
  | cons p rest ih =>
      intro m h
      rw [addSeries_cons]
      exact ih _ (nodup_keys_dictAdd m p.1 p.2 h)

theorem nodup_keys_buildYearly (ss : List Series) :
    ((buildYearly ss).map Prod.fst).Nodup := by
  rw [buildYearly]
  have h : ∀ m : List (Int × ℚ), (m.map Prod.fst).Nodup →
      ((ss.foldl addSeries m).map Prod.fst).Nodup := by
    induction ss with
    | nil => intro m h; simpa using h
    | cons s rest ih =>
        intro m hm
        rw [List.foldl_cons]
        exact ih _ (nodup_keys_addSeries s m hm)
  exact h [] (by simp)

/-! ## Lemmas about the trend trace -/

theorem trendsTrace_false_of_ne (members : List (Series × Series))
    (h : buildYearly (members.map Prod.fst) ≠ []) :
    trendsTrace false members = some (buildYearly (members.map Prod.fst)) := by
  simp [trendsTrace, h]

theorem trendYears_false_eq (members : List (Series × Series)) :
    trendYears false members = (buildYearly (members.map Prod.fst)).map Prod.fst := by
  by_cases h : buildYearly (members.map Prod.fst) = [] <;>
    simp [trendYears, trendsTrace, h]

theorem divYears_eq_map (yearlyPop : List (Int × ℚ)) :
    ∀ l : List (Int × ℚ),
      (∀ p ∈ l, (alookup p.1 yearlyPop).getD 0 ≠ 0) →
      divYears yearlyPop l =
        some (l.map (fun p => (p.1, p.2 / (alookup p.1 yearlyPop).getD 0))) := by
  intro l
  induction l with
  | nil => intro h; rfl
  | cons p rest ih =>
      intro h
      have hp : ¬ (alookup p.1 yearlyPop).getD 0 = 0 :=
        h p (List.mem_cons_self p rest)
      rw [List.map_cons]
      simp only [divYears, if_neg hp,
        ih (fun q hq => h q (List.mem_cons_of_mem p hq))]

theorem trendsTracePerCapita_agrees (members : List (Series × Series))
    (h : ∀ p ∈ (buildYearly (members.map Prod.fst)).filter
        (fun p => (alookup p.1 (buildYearly (members.map Prod.snd))).isSome),
      (alookup p.1 (buildYearly (members.map Prod.snd))).getD 0 ≠ 0) :
    trendsTracePerCapita members = toPCResult (trendsTrace true members) := by
  by_cases hY : buildYearly (members.map Prod.fst) = []
  · simp [trendsTracePerCapita, trendsTrace, toPCResult, hY]
  · simp only [trendsTracePerCapita, trendsTrace, if_neg hY]
    rw [divYears_eq_map _ _ h]
    rfl

theorem valsAt_sum_of_nodup (y : Int) (s : Series)
    (h : (s.map Prod.fst).Nodup) :
    (valsAt y s).sum = (alookup y s).getD 0 := by
  induction s with
  | nil => simp [valsAt_nil, alookup]
  | cons p rest ih =>
      rw [List.map_cons, List.nodup_cons] at h
      by_cases hp : p.1 = y
      · have hnot : alookup y rest = none := by
          rw [← valsAt_eq_nil_iff, valsAt_eq_nil_iff, ← Option.not_isSome_iff_eq_none,
            ← mem_keys_iff_isSome]
          exact hp ▸ h.1
        have hv : valsAt y rest = [] := (valsAt_eq_nil_iff y rest).mpr hnot
        simp [valsAt_cons, alookup, hp, hv]
      · simp [valsAt_cons, alookup, hp, ih h.2]

theorem sum_filterMap_alookup (members : List (Series × Series)) (y : Int) :
    (reportedVals members y).sum =
      (members.map (fun m => (alookup y m.1).getD 0)).sum := by
  induction members with
  | nil => simp [reportedVals]
  | cons m rest ih =>
      rw [reportedVals] at ih ⊢
      cases h : alookup y m.1 <;>
        simp [List.filterMap_cons, h, ih]

theorem sum_filter_valsAt (y : Int) (L : List Series) :
    (((L.filter (fun s => !(valsAt y s).isEmpty)).map
        (fun s => (valsAt y s).sum)).sum) =
      ((L.map (fun s => (valsAt y s).sum)).sum) := by
  induction L with
  | nil => simp
  | cons s rest ih =>
      by_cases h : (valsAt y s).isEmpty
      · have hnil : valsAt y s = [] := by
          cases hv : valsAt y s
          · rfl
          · rw [hv] at h; simp [List.isEmpty] at h
        simp [List.filter_cons, h, hnil, ih]
      · simp [List.filter_cons, h, ih]

/-! ## Claim theorems -/

/-- C1 (amended): in the plain (sum) trend aggregation a year appears in
the emitted series iff at least one group member has an observation (a
non-null value) for that year, and when it appears its aggregate is built
only from the members that reported that year - a member with no
observation for the year contributes nothing, in particular no implicit
zero.  (For the GDP-per-Capita trend the first equivalence fails: a year
with a metric observation is dropped when no member reports population for
that year, as the counterexample shows.) -/
theorem c1_year_presence (members : List (Series × Series)) (y : Int) :
    (y ∈ trendYears false members ↔ ∃ m ∈ members, (alookup y m.1).isSome)
    ∧ (y ∈ trendYears false members →
        alookup y (buildYearly (members.map Prod.fst)) =
          some ((((members.map Prod.fst).filter
              (fun s => !(valsAt y s).isEmpty)).map
            (fun s => (valsAt y s).sum)).sum)) := by
  constructor
  · rw [trendYears_false_eq, mem_keys_iff_isSome, Option.isSome_iff_ne_none,
      Ne, alookup_buildYearly_eq_none]
    push_neg
    constructor
    · rintro ⟨s, hs, hsne⟩
      rcases List.mem_map.mp hs with ⟨m, hm, rfl⟩
      refine ⟨m, hm, ?_⟩
      rw [Option.isSome_iff_ne_none]
      intro hnone
      exact hsne ((valsAt_eq_nil_iff y m.1).mpr hnone)
    · rintro ⟨m, hm, hsome⟩
      refine ⟨m.1, List.mem_map_of_mem Prod.fst hm, ?_⟩
      intro hnil
      rw [valsAt_eq_nil_iff] at hnil
      rw [hnil] at hsome
      simp at hsome
  · intro hy
    rw [trendYears_false_eq, mem_keys_iff_isSome] at hy
    rcases Option.isSome_iff_exists.mp hy with ⟨v, hv⟩
    have hgd := alookup_buildYearly_getD (members.map Prod.fst) y
    rw [hv] at hgd
    simp only [Option.getD_some] at hgd
    rw [hv, sum_filter_valsAt, ← hgd]

/-- C1 witness: a concrete group where the year 2000 is reported by the
first member only; the aggregate at 2000 is exactly that member's value. -/
theorem c1_year_presence_witness :
    (2000 ∈ trendYears false
      ([([(2000, (10 : ℚ))], []), ([], [])] : List (Series × Series)))
    ∧ alookup 2000 (buildYearly
        ((([([(2000, (10 : ℚ))], []), ([], [])] : List (Series × Series)).map
          Prod.fst))) =
        some ((((([([(2000, (10 : ℚ))], []), ([], [])] :
            List (Series × Series)).map Prod.fst).filter
            (fun s => !(valsAt 2000 s).isEmpty)).map
          (fun s => (valsAt 2000 s).sum)).sum) :=
  ⟨by decide,
   (c1_year_presence
     ([([(2000, (10 : ℚ))], []), ([], [])] : List (Series × Series)) 2000).2
     (by decide)⟩

/-- C1 counterexample: a single member whose GDP-per-Capita series has an
observation for 2020 but whose population series is empty; the per-capita
trend emits an empty series, so 2020 does not appear although a group
member has an observation for it. -/
theorem c1_counterexample :
    trendsTrace true [([(2020, (5 : ℚ))], [])] = some []
    ∧ (alookup 2020 ([(2020, (5 : ℚ))] : Series)).isSome := by decide

/-- C2: for every finite group and every year reported by at least one
member, the sum-mode trend aggregate at that year is exactly the
arithmetic sum of the values reported at that year by the members that
have an observation for it (each member carrying at most one observation
per year, as get_series guarantees). -/
theorem c2_sum_mode (members : List (Series × Series)) (y : Int)
    (hnodup : ∀ m ∈ members, ((m.1).map Prod.fst).Nodup)
    (hy : ∃ m ∈ members, (alookup y m.1).isSome) :
    ∃ out, trendsTrace false members = some out ∧
      (y, (reportedVals members y).sum) ∈ out := by
  have hne : alookup y (buildYearly (members.map Prod.fst)) ≠ none := by
    rw [Ne, alookup_buildYearly_eq_none]
    intro hall
    rcases hy with ⟨m, hm, hsome⟩
    have := hall m.1 (List.mem_map_of_mem Prod.fst hm)
    rw [valsAt_eq_nil_iff] at this
    rw [this] at hsome
    simp at hsome
  have hYne : buildYearly (members.map Prod.fst) ≠ [] := by
    intro h0
    apply hne
    rw [h0]
    rfl
  refine ⟨buildYearly (members.map Prod.fst),
    trendsTrace_false_of_ne members hYne, ?_⟩
  rcases Option.ne_none_iff_exists.mp hne with ⟨v, hv⟩
  have hval : v = (reportedVals members y).sum := by
    have hgd := alookup_buildYearly_getD (members.map Prod.fst) y
    rw [← hv] at hgd
    simp only [Option.getD_some] at hgd
    rw [sum_filterMap_alookup, hgd, List.map_map]
    have hmap : members.map ((fun s => (valsAt y s).sum) ∘ Prod.fst) =
        members.map (fun m => (alookup y m.1).getD 0) :=
      List.map_congr_left
        (fun m hm => valsAt_sum_of_nodup y m.1 (hnodup m hm))
    rw [hmap]
  exact hval ▸ alookup_eq_some_mem y v _ hv.symm

/-- C2 witness: in a group where the year 2000 is reported by two of three
members (values 10 and 32) the trend trace carries (2000, 42). -/
theorem c2_sum_mode_witness :
    ∃ out, trendsTrace false
      ([([(2000, (10 : ℚ))], []), ([], []), ([(1999, (7 : ℚ)), (2000, (32 : ℚ))], [])] :
        List (Series × Series)) = some out ∧
      (2000, (reportedVals
        ([([(2000, (10 : ℚ))], []), ([], []), ([(1999, (7 : ℚ)), (2000, (32 : ℚ))], [])] :
          List (Series × Series)) 2000).sum) ∈ out :=
  c2_sum_mode _ 2000 (by decide) (by decide)

/-- C4 counterexample: two members whose series cover different year
ranges; the years handed to the chart come out in dictionary insertion
order 2000, 2001, 1999, which is not strictly increasing. -/
theorem c4_counterexample :
    trendYears false
      ([([(2000, (1 : ℚ)), (2001, (2 : ℚ))], []), ([(1999, (3 : ℚ))], [])] :
        List (Series × Series)) = [2000, 2001, 1999]
    ∧ ¬ List.Pairwise (fun a b => a < b) ([2000, 2001, 1999] : List Int) := by
  constructor
  · decide
  · intro h
    have := List.rel_of_pairwise_cons h
      (List.mem_cons_of_mem 2001 (List.mem_cons_self 1999 []))
    omega

/-- C4 (amended): the year sequence handed to the chart contains each year
at most once and only years that some member reports, but it is emitted in
dictionary insertion order (order of first appearance across members), not
sorted ascending, when the members' series cover different year ranges. -/
theorem c4_years_nodup (perCapita : Bool) (members : List (Series × Series)) :
    (trendYears perCapita members).Nodup := by
  cases perCapita
  · rw [trendYears_false_eq]
    exact nodup_keys_buildYearly (members.map Prod.fst)
  · by_cases h : buildYearly (members.map Prod.fst) = []
    · simp [trendYears, trendsTrace, h]
    · have hsub : (((buildYearly (members.map Prod.fst)).filter
          (fun p => (alookup p.1 (buildYearly (members.map Prod.snd))).isSome)).map
            Prod.fst).Sublist
          ((buildYearly (members.map Prod.fst)).map Prod.fst) :=
        (List.filter_sublist _).map Prod.fst
      have hnd := (nodup_keys_buildYearly (members.map Prod.fst)).sublist hsub
      simp only [trendYears, trendsTrace, h, if_neg, if_false, if_true,
        Option.getD_some, List.map_map]
      simpa using hnd

theorem cvals_length_eq_reported (ms : List CMember) :
    (cvals ms).length = (reportedC ms).length := by
  induction ms with
  | nil => rfl
  | cons m rest ih =>
      simp only [cvals, reportedC] at ih
      cases h : m.val <;>
        simp [cvals, reportedC, List.filterMap_cons, List.filter_cons, h, ih]

/-- C3: the mean-mode (Gini) aggregate of tab_compare is the sum of the
reporting members' values divided by the number of members that actually
reported a value (never by the total group size). -/
theorem c3_gini_mean (ms : List CMember) (h : cvals ms ≠ []) :
    compareAgg CMode.giniMode ms =
      some ((cvals ms).sum / ((reportedC ms).length : ℚ)) := by
  simp only [compareAgg, if_neg h]
  rw [cvals_length_eq_reported]

/-- C3 witness: a group of two members where only the first reports (value
4); the Gini aggregate divides by 1, not by the group size 2, and equals 4. -/
theorem c3_gini_mean_witness :
    (cvals [CMember.mk (some 4) none, CMember.mk none (some 3)] ≠ [])
    ∧ compareAgg CMode.giniMode [CMember.mk (some 4) none, CMember.mk none (some 3)] =
        some ((cvals [CMember.mk (some 4) none, CMember.mk none (some 3)]).sum /
          ((reportedC [CMember.mk (some 4) none, CMember.mk none (some 3)]).length : ℚ)) :=
  ⟨by decide, c3_gini_mean [CMember.mk (some 4) none, CMember.mk none (some 3)] (by decide)⟩

/-- C5: the failing input for the weighted-ratio claim, evaluated on the
source computation.  Member A reports metric 100 and population 10 for
2020; member B reports metric 50 and no population.  The trend per-capita
aggregate is (100 + 50) / 10 = 15 because the numerator sum ranges over
all metric-reporting members, while the weighted-ratio of the spec,
restricted to members reporting both, is 100 / 10 = 10. -/
theorem c5_failing_eval :
    trendsTrace true
      ([([(2020, (100 : ℚ))], [(2020, (10 : ℚ))]), ([(2020, (50 : ℚ))], [])] :
        List (Series × Series)) = some [(2020, 15)]
    ∧ weightedRatioSpec
        ([([(2020, (100 : ℚ))], [(2020, (10 : ℚ))]), ([(2020, (50 : ℚ))], [])] :
          List (Series × Series)) 2020 = some 10
    ∧ (15 : ℚ) ≠ 10 := by
  refine ⟨?_, ?_, by norm_num⟩
  · simp only [trendsTrace, buildYearly, addSeries, dictAdd, alookup,
      List.map_cons, List.map_nil, List.foldl_cons, List.foldl_nil]
    norm_num
  · simp only [weightedRatioSpec, alookup, List.filter_cons, List.filter_nil,
      List.filterMap_cons, List.filterMap_nil]
    norm_num [List.filterMap_cons, List.filterMap_nil, alookup]

/-- C6: with zero total weight for a year the source does not omit the
year: the guard (y in yearly_pop) tests presence of weight data, not a
nonzero total, so the year is kept and the code reaches the division with
divisor 0, aborting with a ZeroDivisionError.  At the failing input - one
member with metric 5 and population 0 at 2020 - the stored total weight is
0 and the fallibly modelled per-capita trace crashes instead of omitting
the year or emitting a value. -/
theorem c6_zero_weight_crash :
    alookup 2020 (buildYearly
      (([([(2020, (5 : ℚ))], [(2020, (0 : ℚ))])] :
        List (Series × Series)).map Prod.snd)) = some 0
    ∧ trendsTracePerCapita
        ([([(2020, (5 : ℚ))], [(2020, (0 : ℚ))])] : List (Series × Series)) =
      PCResult.crash := by
  decide

/-- C7: aggregating an empty entity set yields no trace at all, and a
member whose fetched series are empty contributes no years: removing it
from any position of the group leaves the trace unchanged. -/
theorem c7_degenerate :
    (∀ pc : Bool, trendsTrace pc [] = none)
    ∧ (∀ (pc : Bool) (xs ys : List (Series × Series)),
        trendsTrace pc (xs ++ ([], []) :: ys) = trendsTrace pc (xs ++ ys)) := by
  constructor
  · intro pc
    simp [trendsTrace, buildYearly]
  · intro pc xs ys
    have h1 : buildYearly ((xs ++ ([], ([] : Series)) :: ys).map Prod.fst) =
        buildYearly ((xs ++ ys).map Prod.fst) := by
      simp [buildYearly, List.map_append, List.foldl_append, addSeries_nil]
    have h2 : buildYearly ((xs ++ ([], ([] : Series)) :: ys).map Prod.snd) =
        buildYearly ((xs ++ ys).map Prod.snd) := by
      simp [buildYearly, List.map_append, List.foldl_append, addSeries_nil]
    simp only [trendsTrace, h1, h2]

/-- C8: the data-access layer absorbs failure totally.  A network or parse
failure (the Except.error side, which safe_json turns into None) and a
malformed response (fewer than two pages, or a null data page) all yield
an empty series from get_series and an absent value from get_indicator,
never a propagated fault. -/
theorem c8_failure_absorbed (e : Unit) (js : WBResponse) :
    (get_series (Except.error e) = [] ∧ get_indicator (Except.error e) = none)
    ∧ (js.length < 2 →
        get_series (Except.ok js) = [] ∧ get_indicator (Except.ok js) = none)
    ∧ (js.get? 1 = some none →
        get_series (Except.ok js) = [] ∧ get_indicator (Except.ok js) = none) := by
  refine ⟨⟨rfl, rfl⟩, ?_, ?_⟩
  · intro h
    constructor
    · simp [get_series, safe_json, h]
    · simp [get_indicator, safe_json, h]
  · intro h
    rw [List.get?_eq_getElem?] at h
    by_cases hl : js.length < 2
    · constructor
      · simp [get_series, safe_json, hl]
      · simp [get_indicator, safe_json, hl]
    · constructor
      · simp [get_series, safe_json, hl, h]
      · simp [get_indicator, safe_json, hl, h]

/-- C8 witness: a response of exactly two pages whose data page is null
gives an empty series and an absent indicator. -/
theorem c8_failure_absorbed_witness :
    (([some [], none] : WBResponse).get? 1 = some none)
    ∧ (get_series (Except.ok ([some [], none] : WBResponse)) = []
       ∧ get_indicator (Except.ok ([some [], none] : WBResponse)) = none) :=
  ⟨by decide,
   (c8_failure_absorbed () ([some [], none] : WBResponse)).2.2 (by decide)⟩

/-- C9: the trend aggregation is deterministic in its inputs: its output
depends only on the series delivered for the selected members and on the
mode, so two fetch functions that agree on every selected member produce
identical traces. -/
theorem c9_deterministic (pc : Bool) (f g : Nat → Series × Series)
    (members : List Nat) (h : ∀ c ∈ members, f c = g c) :
    trendsTraceF pc f members = trendsTraceF pc g members := by
  rw [trendsTraceF, trendsTraceF, List.map_congr_left h]

/-- C9 witness: two syntactically different fetch functions that agree on
the selected member 0 give the same trace. -/
theorem c9_deterministic_witness :
    trendsTraceF false (fun _ => (([(2000, (1 : ℚ))], []) : Series × Series)) [0]
      = trendsTraceF false
          (fun n => if n = 0 then (([(2000, (1 : ℚ))], []) : Series × Series)
            else ([], [])) [0] :=
  c9_deterministic false _ _ [0] (by decide)

/-- C10: a value of exactly 0 is filtered out by truthiness wherever the
source tests the bare value - the Trade tab's imports and exports lists,
the Live ticker's population contribution, and the Comparison tab's pops
list all treat a 0 observation exactly like an absent one - whereas the
Comparison tab's main metric list keeps a 0 value and only drops None. -/
theorem c10_zero_is_absent (rest : List TMember) (e : Option ℚ)
    (restP : List (Option ℚ)) (w : Option ℚ) (restC : List CMember)
    (q : Option ℚ) :
    importsOf (TMember.mk (some 0) e :: rest) =
      importsOf (TMember.mk none e :: rest)
    ∧ exportsOf (TMember.mk e (some 0) :: rest) =
        exportsOf (TMember.mk e none :: rest)
    ∧ liveGrowthPerYear w (some 0 :: restP) = liveGrowthPerYear w (none :: restP)
    ∧ cpops (CMember.mk q (some 0) :: restC) = cpops (CMember.mk q none :: restC)
    ∧ cvals (CMember.mk (some 0) q :: restC) = 0 :: cvals restC := by
  have h0 : liveContribution w (some 0) = 0 := by
    simp [liveContribution, truthy]
  have h1 : liveContribution w none = 0 := by
    simp [liveContribution, truthy]
  refine ⟨?_, ?_, ?_, ?_, ?_⟩
  · simp [importsOf, truthy, List.filterMap_cons]
  · simp [exportsOf, truthy, List.filterMap_cons]
  · simp only [liveGrowthPerYear, List.foldl_cons, h0, h1]
  · simp [cpops, truthy, List.filterMap_cons]
  · simp [cvals, List.filterMap_cons]
